import Mathlib

/-!
Verification development for the DXContainer-style binary container reader.

The reader itself (the create entry point, the part-table walk, and the
structured part decoders for program, pipeline-state-validation and signature
parts) is modelled here as executable Lean functions over byte lists.  The
model follows the specification (spec.md sections 3, 4, 6 and 7) and is pinned,
wherever the two speak about the same input, by the concrete expectations of
the unit tests in llvm/unittests/Object/DXContainerTest.cpp, which are part of
the reviewed sources.  Buffers are little-endian byte lists; 32-bit fields are
read as natural numbers below 2 to the 32; the one place where the reference
arithmetic is 32-bit modular (the running end-of-previous-part value used by
the overlap check) is modelled with an explicit mod 2 to the 32.
-/

set_option autoImplicit false

namespace DXC

/-- Reads a little-endian unsigned 32-bit value at a byte offset, failing when
fewer than four bytes are available from that offset, as the bounds-checked
readInteger helper of the reader does. -/
def readU32 (data : List Nat) (off : Nat) : Option Nat :=
  match data.drop off with
  | b0 :: b1 :: b2 :: b3 :: _ =>
    some (b0 + 256 * b1 + 65536 * b2 + 16777216 * b3)
  | _ => none

/-- Reads a little-endian unsigned 32-bit value with missing bytes treated as
zero.  This models a memcpy into a zero-initialised record: bytes beyond the
copied range keep the value zero. -/
def readU32Z (data : List Nat) (off : Nat) : Nat :=
  data.getD off 0 + 256 * data.getD (off + 1) 0 +
    65536 * data.getD (off + 2) 0 + 16777216 * data.getD (off + 3) 0

/-- Little-endian encoding of an unsigned 32-bit value as four bytes. -/
def toLE4 (n : Nat) : List Nat :=
  [n % 256, n / 256 % 256, n / 65536 % 256, n / 16777216 % 256]

/-- The structural error taxonomy of the reader (spec.md section 7).  The
partExceedsFile constructor is the spec name for a part whose declared end
Offset + 8 + Size exceeds the buffer; the unit tests pin that the reader
never reports it for a part whose 8-byte header is readable (such a part has
its data truncated to the buffer end instead), so the model produces it
nowhere; it is kept so that statements about it can be written down. -/
inductive ParseError where
  | truncatedHeader
  | truncatedOffsetTable
  | partOffsetBeyondFile
  | truncatedPartName
  | truncatedPartSize
  | partExceedsFile
  | overlappingParts (idx : Nat)
  | partTooSmallForHeader
  | pipelineStateExceedsPart
  | resourceTableExceedsPart
  | misalignedStringTable
  | parametersExceedPart
  | nameBeforeStringTable
  | nameAfterPartEnd
  deriving DecidableEq

/-- One decoded resource-binding record.  Field layout of the version-2 record:
type tag at byte 0, register space at 4, lower bound at 8, upper bound at 12,
kind at 16 and flags at 20; total natural width 24 bytes.  ResType stands for
the Type field of the reference record (Type is reserved in Lean). -/
structure ResourceBindInfo where
  ResType : Nat
  Space : Nat
  LowerBound : Nat
  UpperBound : Nat
  Kind : Nat
  Flags : Nat

/-- Resource type tags used by the tests: Invalid 0, Sampler 1, CBV 2,
SRVTyped 3, SRVStructured 5. -/
def rtInvalid : Nat := 0

def rtSampler : Nat := 1

def rtCBV : Nat := 2

def rtSRVTyped : Nat := 3

def rtSRVStructured : Nat := 5

/-- Natural byte width of the version-2 resource-binding record. -/
def bindInfoWidth : Nat := 24

/-- Decodes a resource-binding record from a chunk of at most 24 bytes.  The
record is zero-initialised first, so fields whose bytes are absent from the
chunk keep the value zero. -/
def decodeBindInfo (chunk : List Nat) : ResourceBindInfo :=
  { ResType := readU32Z chunk 0
    Space := readU32Z chunk 4
    LowerBound := readU32Z chunk 8
    UpperBound := readU32Z chunk 12
    Kind := readU32Z chunk 16
    Flags := readU32Z chunk 20 }

/-- The all-zero record returned when dereferencing the end sentinel: type tag
Invalid, flags zero. -/
def invalidBindInfo : ResourceBindInfo := decodeBindInfo []

/-- A fixed-stride record table view: the raw table bytes plus the declared
stride, which is data-driven and may differ from the natural record width. -/
structure ViewArray where
  Data : List Nat
  Stride : Nat

/-- A bidirectional iterator over a ViewArray: the byte position of the
current record inside the table (the model of the Current pointer). -/
structure VAIterator where
  arr : ViewArray
  pos : Nat

/-- The begin iterator: position zero. -/
def ViewArray.ibegin (a : ViewArray) : VAIterator := ⟨a, 0⟩

/-- The end sentinel: position equal to the table length. -/
def ViewArray.iend (a : ViewArray) : VAIterator := ⟨a, a.Data.length⟩

/-- Dereference.  At or past the end of the table the zero-initialised Invalid
record is returned and no bytes are touched; otherwise the record is decoded
from min(Stride, 24) bytes starting at the current position, the rest of the
record staying zero. -/
def VAIterator.deref (it : VAIterator) : ResourceBindInfo :=
  if it.arr.Data.length ≤ it.pos then invalidBindInfo
  else decodeBindInfo ((it.arr.Data.drop it.pos).take (min it.arr.Stride bindInfoWidth))

/-- Increment: moves forward one declared stride unless already at or past the
end of the table, in which case the position is left unchanged. -/
def VAIterator.inc (it : VAIterator) : VAIterator :=
  if it.pos < it.arr.Data.length then ⟨it.arr, it.pos + it.arr.Stride⟩ else it

/-- Decrement: moves back one declared stride unless already at the beginning
of the table, in which case the position is left unchanged. -/
def VAIterator.dec (it : VAIterator) : VAIterator :=
  if 0 < it.pos then ⟨it.arr, it.pos - it.arr.Stride⟩ else it

/-- One little-endian resource record of four 32-bit values followed by
padding bytes up to a requested record width. -/
def bindRecord (width t s lo hi : Nat) : List Nat :=
  toLE4 t ++ toLE4 s ++ toLE4 lo ++ toLE4 hi ++ List.replicate (width - 16) 0

/-- The resource table of the PSVResourceIterators test: stride 16, three
records Sampler, CBV and SRVTyped with space and bounds 1, 2 and 3. -/
def c2Table : List Nat :=
  bindRecord 16 rtSampler 1 1 1 ++ bindRecord 16 rtCBV 2 2 2 ++
    bindRecord 16 rtSRVTyped 3 3 3

/-- The view over the test table with the declared stride 16. -/
def c2VA : ViewArray := ⟨c2Table, 16⟩

/-- The resource table of the PSVResourceIteratorsStride test: stride 32, two
records with values 1,2,3,4 and 5,6,7,8, the value bytes of each record
followed by sixteen zero bytes. -/
def c3Table : List Nat :=
  bindRecord 32 1 2 3 4 ++ bindRecord 32 5 6 7 8

/-- The view over the stride test table with the declared stride 32. -/
def c3VA : ViewArray := ⟨c3Table, 32⟩

/-- Modelled from the spec: the program part decoder (spec.md 4.4), whose
source file is not among the reviewed sources.  It requires the 24-byte
program header to fit in the part data and the declared nested bitcode range
(offset and size held at header bytes 16 and 20, relative to the bitcode
header at part byte 8) to fit within the part data. -/
def parseDXIL (data : List Nat) : Except ParseError Unit :=
  if data.length < 24 then Except.error ParseError.partTooSmallForHeader
  else if data.length < 8 + readU32Z data 16 + readU32Z data 20 then
    Except.error ParseError.partTooSmallForHeader
  else Except.ok ()

/-- Modelled from the spec: the per-parameter name-offset walk of the
signature decoder (spec.md 4.4), whose source file is not among the reviewed
sources.  Parameter records are 32 bytes; the name offset is the 32-bit field
at record byte 4.  A name offset below the string-table start fails
nameBeforeStringTable; one at or past the end of the part data fails
nameAfterPartEnd.  The argument i is the index of the next parameter to
check, n the number of parameters still to check. -/
def checkParams (data : List Nat) (firstOff stOff : Nat) : Nat → Nat → Except ParseError Unit
  | _, 0 => Except.ok ()
  | i, Nat.succ n =>
    let nameOff := readU32Z data (firstOff + 32 * i + 4)
    if nameOff < stOff then Except.error ParseError.nameBeforeStringTable
    else if data.length ≤ nameOff then Except.error ParseError.nameAfterPartEnd
    else checkParams data firstOff stOff (i + 1) n

/-- Modelled from the spec: the signature part decoder (spec.md 4.4), whose
source file is not among the reviewed sources; the shape of its header is
pinned by the MalformedSignature unit test buffers.  The header holds the
parameter count at byte 0 and the parameter-table start offset at byte 4;
parameter records are 32 bytes.  The decoder fails parametersExceedPart when
the parameter table does not fit in the part data, computes the string-table
start as the end of the parameter table, and then checks every parameter name
offset against the range from that start to the end of the part data. -/
def parseSignature (data : List Nat) : Except ParseError Unit :=
  match readU32 data 0, readU32 data 4 with
  | some count, some firstOff =>
    if data.length < firstOff + 32 * count then Except.error ParseError.parametersExceedPart
    else checkParams data firstOff (firstOff + 32 * count) 0 count
  | _, _ => Except.error ParseError.partTooSmallForHeader

/-- Modelled from the spec: the tail of the PSV decoder past the resource
table (pinned by the MisalignedStringTable unit test).  Pipeline-state info
records of 36 or more bytes (version 1 and later) are followed by a 32-bit
string-table size whose value must be a multiple of four, else the part is
rejected with misalignedStringTable.  The sections after the string-table
size (string bytes, index table, signature elements) decide no claim and are
not modelled. -/
def psvStringTableCheck (data : List Nat) (infoSize cur : Nat) : Except ParseError Unit :=
  if infoSize < 36 then Except.ok ()
  else
    match readU32 data cur with
    | none => Except.error ParseError.partTooSmallForHeader
    | some stSize =>
      if stSize % 4 ≠ 0 then Except.error ParseError.misalignedStringTable
      else Except.ok ()

/-- Modelled from the spec: the PSV part decoder (spec.md 4.4), whose source
file is not among the reviewed sources; its error messages are pinned by the
MaliciousFiles unit tests.  Layout: a 32-bit info-size field, the info record
of that many bytes (failing pipelineStateExceedsPart when it does not fit in
the part data), a 32-bit resource count, then when the count is positive a
32-bit resource stride followed by count times stride bytes of resource
records (failing resourceTableExceedsPart when those do not fit in the part
data), then for info records of 36 or more bytes the string-table section.
On success the resource table view carrying the declared stride is returned,
none when the resource count is zero. -/
def parsePSV (data : List Nat) : Except ParseError (Option ViewArray) :=
  match readU32 data 0 with
  | none => Except.error ParseError.partTooSmallForHeader
  | some infoSize =>
    if data.length < 4 + infoSize then Except.error ParseError.pipelineStateExceedsPart
    else
      match readU32 data (4 + infoSize) with
      | none => Except.error ParseError.partTooSmallForHeader
      | some resCount =>
        if resCount = 0 then
          (psvStringTableCheck data infoSize (8 + infoSize)).map fun _ => none
        else
          match readU32 data (8 + infoSize) with
          | none => Except.error ParseError.partTooSmallForHeader
          | some stride =>
            if data.length < 12 + infoSize + resCount * stride then
              Except.error ParseError.resourceTableExceedsPart
            else
              (psvStringTableCheck data infoSize (12 + infoSize + resCount * stride)).map
                fun _ => some ⟨(data.drop (12 + infoSize)).take (resCount * stride), stride⟩

/-- Four-byte name tag of the program part. -/
def dxilName : List Nat := [0x44, 0x58, 0x49, 0x4C]

/-- Four-byte name tag of the pipeline-state-validation part. -/
def psv0Name : List Nat := [0x50, 0x53, 0x56, 0x30]

/-- Four-byte name tag of the input signature part. -/
def isg1Name : List Nat := [0x49, 0x53, 0x47, 0x31]

/-- Four-byte name tag of the output signature part. -/
def osg1Name : List Nat := [0x4F, 0x53, 0x47, 0x31]

/-- Four-byte name tag of the patch-constant signature part. -/
def psg1Name : List Nat := [0x50, 0x53, 0x47, 0x31]

/-- Dispatch of the structured part decoders on the part name, as the part
walk performs it; parts with unrecognised names are skipped.  Each decoder
sees only the bytes of the part data, never the rest of the buffer. -/
def parsePartData (name data : List Nat) : Except ParseError Unit :=
  if name = dxilName then parseDXIL data
  else if name = psv0Name then (parsePSV data).map fun _ => ()
  else if name = isg1Name ∨ name = osg1Name ∨ name = psg1Name then parseSignature data
  else Except.ok ()

/-- One decoded part: the 4-byte name tag, the declared 32-bit size and the
part data, which is the run of declared-size bytes after the 8-byte part
header truncated at the buffer end. -/
structure PartInfo where
  name : List Nat
  size : Nat
  data : List Nat

/-- The validated container: the part count from the header and the decoded
parts in offset-table order. -/
structure DXContainer where
  partCount : Nat
  parts : List PartInfo

/-- Modelled from the spec: the part-table walk (spec.md 4.3), whose source
file is not among the reviewed sources; the order and effect of its checks
are pinned by the unit tests.  For each of fuel remaining parts, with i the
index of the next part: the 32-bit part offset is read from the offset table
(truncatedOffsetTable when the table itself does not fit); an offset below
the running end of the previous part fails overlappingParts with the index of
the offending part; an offset at or past the buffer end fails
partOffsetBeyondFile; one within four bytes of the buffer end fails
truncatedPartName; a part whose 32-bit size field does not fit fails
truncatedPartSize.  The part data is the declared run of bytes truncated at
the buffer end (the unit tests pin that a part whose declared end exceeds the
buffer is not rejected).  The running end is Offset + 8 + Size reduced mod
2 to the 32, as the reference keeps it in a 32-bit variable. -/
def parsePartsLoop (bytes : List Nat) : Nat → Nat → Nat → List PartInfo →
    Except ParseError (List PartInfo)
  | _, 0, _, acc => Except.ok acc.reverse
  | i, Nat.succ fuel, lastOff, acc =>
    match readU32 bytes (32 + 4 * i) with
    | none => Except.error ParseError.truncatedOffsetTable
    | some off =>
      if off < lastOff then Except.error (ParseError.overlappingParts i)
      else if bytes.length ≤ off then Except.error ParseError.partOffsetBeyondFile
      else if bytes.length - 4 ≤ off then Except.error ParseError.truncatedPartName
      else
        match readU32 bytes (off + 4) with
        | none => Except.error ParseError.truncatedPartSize
        | some size =>
          let name := (bytes.drop off).take 4
          let data := (bytes.drop (off + 8)).take size
          match parsePartData name data with
          | Except.error e => Except.error e
          | Except.ok _ =>
            parsePartsLoop bytes (i + 1) fuel ((off + 8 + size) % 4294967296)
              (⟨name, size, data⟩ :: acc)

/-- Modelled from the spec: the sole external entry point create (spec.md
4.2, 4.3 and 6), whose source file is not among the reviewed sources.  A
buffer shorter than the 32-byte header fails truncatedHeader before any field
is interpreted; the magic is not validated here (spec.md 4.2).  The part
count is the 32-bit header field at byte 28; the walk starts with the running
end placed just after the offset table, 32 + 4 * PartCount reduced mod 2 to
the 32 as the reference keeps it in a 32-bit variable. -/
def DXContainer.create (bytes : List Nat) : Except ParseError DXContainer :=
  if bytes.length < 32 then Except.error ParseError.truncatedHeader
  else
    match readU32 bytes 28 with
    | none => Except.error ParseError.truncatedHeader
    | some partCount =>
      match parsePartsLoop bytes 0 partCount ((32 + 4 * partCount) % 4294967296) [] with
      | Except.error e => Except.error e
      | Except.ok parts => Except.ok ⟨partCount, parts⟩

/-- Shorthand for a run of zero bytes. -/
def z (n : Nat) : List Nat := List.replicate n 0

/-- The 36-byte buffer of the ParsePartInvalidOffsets unit test: one part
whose offset-table entry is 0xFFFFFFFF. -/
def invalidOffsetBuf : List Nat :=
  [
    0x44, 0x58, 0x42, 0x43, 0x00, 0x00, 0x00, 0x00, 0x00, 0x00, 0x00, 0x00,
    0x00, 0x00, 0x00, 0x00, 0x00, 0x00, 0x00, 0x00, 0x01, 0x00, 0x00, 0x00,
    0x70, 0x0D, 0x00, 0x00, 0x01, 0x00, 0x00, 0x00, 0xFF, 0xFF, 0xFF, 0xFF
  ]

/-- The 60-byte buffer of the ParseOverlappingParts unit test: part 0 at
offset 40 with size 8, part 1 at offset 44, inside the range of part 0. -/
def overlappingPartsBuf : List Nat :=
  [
    0x44, 0x58, 0x42, 0x43, 0x00, 0x00, 0x00, 0x00, 0x00, 0x00, 0x00, 0x00,
    0x00, 0x00, 0x00, 0x00, 0x00, 0x00, 0x00, 0x00, 0x01, 0x00, 0x00, 0x00,
    0x40, 0x00, 0x00, 0x00, 0x02, 0x00, 0x00, 0x00, 0x28, 0x00, 0x00, 0x00,
    0x2C, 0x00, 0x00, 0x00, 0x46, 0x4B, 0x45, 0x30, 0x08, 0x00, 0x00, 0x00,
    0x46, 0x4B, 0x45, 0x31, 0x00, 0x00, 0x00, 0x00, 0x00, 0x00, 0x00, 0x00
  ]

/-- The 168-byte buffer of the MisalignedStringTable unit test: a DXIL part,
then a PSV0 part at offset 72 whose declared size 104 reaches byte 184, past
the 168-byte buffer end; its pipeline-state string-table size field holds 1,
which is not a multiple of four. -/
def misalignedBuf : List Nat :=
  [
    0x44, 0x58, 0x42, 0x43, 0x00, 0x00, 0x00, 0x00, 0x00, 0x00, 0x00, 0x00,
    0x00, 0x00, 0x00, 0x00, 0x00, 0x00, 0x00, 0x00, 0x00, 0x00, 0x00, 0x00,
    0xB4, 0x00, 0x00, 0x00, 0x02, 0x00, 0x00, 0x00, 0x28, 0x00, 0x00, 0x00,
    0x48, 0x00, 0x00, 0x00, 0x44, 0x58, 0x49, 0x4C, 0x18, 0x00, 0x00, 0x00,
    0x60, 0x00, 0x0E, 0x00, 0x06, 0x00, 0x00, 0x00, 0x44, 0x58, 0x49, 0x4C,
    0x00, 0x01, 0x00, 0x00, 0x10, 0x00, 0x00, 0x00, 0x00, 0x00, 0x00, 0x00,
    0x50, 0x53, 0x56, 0x30, 0x68, 0x00, 0x00, 0x00, 0x24, 0x00, 0x00, 0x00,
    0x00, 0x00, 0x00, 0x00, 0x00, 0x00, 0x00, 0x00, 0x00, 0x00, 0x00, 0x00,
    0x00, 0x00, 0x00, 0x00, 0x00, 0x00, 0x00, 0x00, 0xFF, 0xFF, 0xFF, 0xFF,
    0x05, 0x80, 0x00, 0x00, 0x00, 0x00, 0x00, 0x40, 0x08, 0x10, 0x20, 0x40,
    0x00, 0x00, 0x00, 0x00, 0x01, 0x00, 0x00, 0x00, 0x00, 0x00, 0x00, 0x00,
    0x00, 0x00, 0x00, 0x00, 0x10, 0x00, 0x00, 0x00, 0x00, 0x00, 0x00, 0x00,
    0x00, 0x00, 0x00, 0x00, 0x00, 0x00, 0x00, 0x00, 0x00, 0x00, 0x00, 0x00,
    0x00, 0x00, 0x00, 0x00, 0x00, 0x00, 0x00, 0x00, 0x00, 0x00, 0x00, 0x00
  ]

/-- The 116-byte buffer of the third MaliciousFiles unit test: a DXIL part,
then a PSV0 part with a 24-byte info record declaring one 16-byte resource
binding that would extend past the end of the part and of the file. -/
def resourceOverrunBuf : List Nat :=
  [
    0x44, 0x58, 0x42, 0x43, 0x00, 0x00, 0x00, 0x00, 0x00, 0x00, 0x00, 0x00,
    0x00, 0x00, 0x00, 0x00, 0x00, 0x00, 0x00, 0x00, 0x01, 0x00, 0x00, 0x00,
    0x74, 0x00, 0x00, 0x00, 0x02, 0x00, 0x00, 0x00, 0x28, 0x00, 0x00, 0x00,
    0x48, 0x00, 0x00, 0x00, 0x44, 0x58, 0x49, 0x4C, 0x18, 0x00, 0x00, 0x00,
    0x60, 0x00, 0x0E, 0x00, 0x06, 0x00, 0x00, 0x00, 0x44, 0x58, 0x49, 0x4C,
    0x00, 0x01, 0x00, 0x00, 0x10, 0x00, 0x00, 0x00, 0x00, 0x00, 0x00, 0x00,
    0x50, 0x53, 0x56, 0x30, 0x24, 0x00, 0x00, 0x00, 0x18, 0x00, 0x00, 0x00,
    0x00, 0x00, 0x00, 0x00, 0x00, 0x00, 0x00, 0x00, 0x00, 0x00, 0x00, 0x00,
    0x00, 0x00, 0x00, 0x00, 0x00, 0x00, 0x00, 0x00, 0x00, 0x00, 0x00, 0x00,
    0x01, 0x00, 0x00, 0x00, 0x10, 0x00, 0x00, 0x00
  ]

/-- The 144-byte buffer of the fourth MaliciousFiles unit test: a DXIL part,
a PSV0 part whose declared one-resource table would overrun into the
following BLEH part while staying inside the file, then the BLEH part. -/
def resourceCrossPartBuf : List Nat :=
  [
    0x44, 0x58, 0x42, 0x43, 0x00, 0x00, 0x00, 0x00, 0x00, 0x00, 0x00, 0x00,
    0x00, 0x00, 0x00, 0x00, 0x00, 0x00, 0x00, 0x00, 0x01, 0x00, 0x00, 0x00,
    0x90, 0x00, 0x00, 0x00, 0x03, 0x00, 0x00, 0x00, 0x2C, 0x00, 0x00, 0x00,
    0x4C, 0x00, 0x00, 0x00, 0x78, 0x00, 0x00, 0x00, 0x44, 0x58, 0x49, 0x4C,
    0x18, 0x00, 0x00, 0x00, 0x60, 0x00, 0x0E, 0x00, 0x06, 0x00, 0x00, 0x00,
    0x44, 0x58, 0x49, 0x4C, 0x00, 0x01, 0x00, 0x00, 0x10, 0x00, 0x00, 0x00,
    0x00, 0x00, 0x00, 0x00, 0x50, 0x53, 0x56, 0x30, 0x24, 0x00, 0x00, 0x00,
    0x18, 0x00, 0x00, 0x00, 0x00, 0x00, 0x00, 0x00, 0x00, 0x00, 0x00, 0x00,
    0x00, 0x00, 0x00, 0x00, 0x00, 0x00, 0x00, 0x00, 0x00, 0x00, 0x00, 0x00,
    0x00, 0x00, 0x00, 0x00, 0x01, 0x00, 0x00, 0x00, 0x10, 0x00, 0x00, 0x00,
    0x42, 0x4C, 0x45, 0x48, 0x10, 0x00, 0x00, 0x00, 0x00, 0x00, 0x00, 0x00,
    0x00, 0x00, 0x00, 0x00, 0x00, 0x00, 0x00, 0x00, 0x00, 0x00, 0x00, 0x00
  ]

/-- The 36-byte PSV0 part data shared by the two resource-overrun unit test
buffers: info size 24, resource count 1, resource stride 16, no record
bytes. -/
def psvOverrunData : List Nat := toLE4 24 ++ z 24 ++ toLE4 1 ++ toLE4 16

/-- The 52-byte ISG1 part data of the third MalformedSignature unit test:
one parameter whose name offset 3 lies before the string-table start 40. -/
def sigNameBeforeData : List Nat :=
  toLE4 1 ++ toLE4 8 ++
    (z 4 ++ toLE4 3 ++ z 8 ++ toLE4 3 ++ z 4 ++ [0x07, 0x02, 0x00, 0x00] ++ z 4) ++
    [0x41, 0x41, 0x41, 0x00] ++ z 8

/-- The 52-byte ISG1 part data of the fourth MalformedSignature unit test:
one parameter whose name offset 255 lies past the 52-byte part end. -/
def sigNameAfterData : List Nat :=
  toLE4 1 ++ toLE4 8 ++
    (z 4 ++ toLE4 255 ++ z 8 ++ toLE4 3 ++ z 4 ++ [0x07, 0x02, 0x00, 0x00] ++ z 4) ++
    [0x41, 0x41, 0x41, 0x00] ++ z 8

/-- The 112-byte container of the third MalformedSignature unit test, whose
single ISG1 part at offset 64 carries the name-offset-3 parameter. -/
def sigNameBeforeBuf : List Nat :=
  [
    0x44, 0x58, 0x42, 0x43, 0x00, 0x00, 0x00, 0x00, 0x00, 0x00, 0x00, 0x00,
    0x00, 0x00, 0x00, 0x00, 0x00, 0x00, 0x00, 0x00, 0x01, 0x00, 0x00, 0x00,
    0x80, 0x00, 0x00, 0x00, 0x01, 0x00, 0x00, 0x00, 0x40, 0x00, 0x00, 0x00,
    0x00, 0x00, 0x00, 0x00, 0x00, 0x00, 0x00, 0x00, 0x00, 0x00, 0x00, 0x00,
    0x00, 0x00, 0x00, 0x00, 0x00, 0x00, 0x00, 0x00, 0x00, 0x00, 0x00, 0x00,
    0x00, 0x00, 0x00, 0x00, 0x49, 0x53, 0x47, 0x31, 0x34, 0x00, 0x00, 0x00,
    0x01, 0x00, 0x00, 0x00, 0x08, 0x00, 0x00, 0x00, 0x00, 0x00, 0x00, 0x00,
    0x03, 0x00, 0x00, 0x00, 0x00, 0x00, 0x00, 0x00, 0x00, 0x00, 0x00, 0x00,
    0x03, 0x00, 0x00, 0x00, 0x00, 0x00, 0x00, 0x00, 0x07, 0x02, 0x00, 0x00,
    0x00, 0x00, 0x00, 0x00
  ]

/-- The 112-byte container of the fourth MalformedSignature unit test, whose
single ISG1 part at offset 64 carries the name-offset-255 parameter. -/
def sigNameAfterBuf : List Nat :=
  [
    0x44, 0x58, 0x42, 0x43, 0x00, 0x00, 0x00, 0x00, 0x00, 0x00, 0x00, 0x00,
    0x00, 0x00, 0x00, 0x00, 0x00, 0x00, 0x00, 0x00, 0x01, 0x00, 0x00, 0x00,
    0x80, 0x00, 0x00, 0x00, 0x01, 0x00, 0x00, 0x00, 0x40, 0x00, 0x00, 0x00,
    0x00, 0x00, 0x00, 0x00, 0x00, 0x00, 0x00, 0x00, 0x00, 0x00, 0x00, 0x00,
    0x00, 0x00, 0x00, 0x00, 0x00, 0x00, 0x00, 0x00, 0x00, 0x00, 0x00, 0x00,
    0x00, 0x00, 0x00, 0x00, 0x49, 0x53, 0x47, 0x31, 0x34, 0x00, 0x00, 0x00,
    0x01, 0x00, 0x00, 0x00, 0x08, 0x00, 0x00, 0x00, 0x00, 0x00, 0x00, 0x00,
    0xFF, 0x00, 0x00, 0x00, 0x00, 0x00, 0x00, 0x00, 0x00, 0x00, 0x00, 0x00,
    0x03, 0x00, 0x00, 0x00, 0x00, 0x00, 0x00, 0x00, 0x07, 0x02, 0x00, 0x00,
    0x00, 0x00, 0x00, 0x00
  ]

/-- A 48-byte signature part whose single parameter has name offset 44: the
name bytes begin four bytes after the end of the parameter table at 40, with
filler bytes in between, and every name offset is inside the valid range. -/
def gapSigData : List Nat :=
  toLE4 1 ++ toLE4 8 ++ (z 4 ++ toLE4 44 ++ z 24) ++
    [0xEE, 0xEE, 0xEE, 0xEE] ++ [0x41, 0x00, 0x00, 0x00]

/-- A buffer holding only the 4-byte magic, as in the ParseHeaderErrors unit
test. -/
def magicOnlyBuf : List Nat := [0x44, 0x58, 0x42, 0x43]

/-- The part bytes of a container of zero-size parts: each part is its 4-byte
name followed by a zero 32-bit size field and no data. -/
def partsBytes (names : List (List Nat)) : List Nat :=
  (names.map fun n => n ++ toLE4 0).flatten

/-- The offset table for count parts of eight bytes each, the first at the
given base offset. -/
def offsetTableBytes (base : Nat) : Nat → List Nat
  | 0 => []
  | Nat.succ c => toLE4 base ++ offsetTableBytes (base + 8) c

/-- The magic tag of the container format. -/
def magicBytes : List Nat := [0x44, 0x58, 0x42, 0x43]

/-- The first 28 header bytes emitted by the builder: magic, zero hash,
version 1.0 and the true file size. -/
def preCountBytes (names : List (List Nat)) : List Nat :=
  magicBytes ++ z 16 ++ [1, 0, 0, 0] ++ toLE4 (32 + 12 * names.length)

/-- Modelled from the spec: the declarative builder (spec.md section 1 treats
it as an external collaborator) specialised to descriptions made of zero-size
parts.  It emits the 32-byte header (magic, zero hash, version 1.0, the true
file size, the part count), the offset table whose entries place the parts
back to back after it, and the parts themselves. -/
def buildContainer (names : List (List Nat)) : List Nat :=
  preCountBytes names ++ toLE4 names.length ++
    offsetTableBytes (32 + 4 * names.length) names.length ++ partsBytes names

/-- The seven fake part names of the ParseEmptyParts unit test. -/
def fkeNames : List (List Nat) :=
  [[0x46, 0x4B, 0x45, 0x30], [0x46, 0x4B, 0x45, 0x31], [0x46, 0x4B, 0x45, 0x32],
    [0x46, 0x4B, 0x45, 0x33], [0x46, 0x4B, 0x45, 0x34], [0x46, 0x4B, 0x45, 0x35],
    [0x46, 0x4B, 0x45, 0x36]]

theorem readU32_append (A B : List Nat) (k : Nat) :
    readU32 (A ++ B) (A.length + k) = readU32 B k := by
  unfold readU32
  rw [List.drop_append k]

theorem le4_assemble (a b c d p q N : Nat)
    (d1 : 256 * p + a = N) (d2 : 256 * q + b = p) (d3 : 256 * d + c = q) :
    a + 256 * b + 65536 * c + 16777216 * d = N := by
  subst d1
  subst d2
  subst d3
  ring

theorem readU32_toLE4 (n : Nat) (rest : List Nat) (h : n < 4294967296) :
    readU32 (toLE4 n ++ rest) 0 = some n := by
  have e : readU32 (toLE4 n ++ rest) 0
      = some (n % 256 + 256 * (n / 256 % 256) + 65536 * (n / 65536 % 256)
        + 16777216 * (n / 16777216 % 256)) := rfl
  have d1 : 256 * (n / 256) + n % 256 = n := Nat.div_add_mod n 256
  have d2 : 256 * (n / 65536) + n / 256 % 256 = n / 256 := by
    have t := Nat.div_add_mod (n / 256) 256
    rw [Nat.div_div_eq_div_mul] at t
    exact t
  have d3 : 256 * (n / 16777216) + n / 65536 % 256 = n / 65536 := by
    have t := Nat.div_add_mod (n / 65536) 256
    rw [Nat.div_div_eq_div_mul] at t
    exact t
  have h4 : n / 16777216 % 256 = n / 16777216 := by
    refine Nat.mod_eq_of_lt (Nat.div_lt_of_lt_mul ?_)
    exact h
  rw [e, h4]
  exact congrArg some
    (le4_assemble (n % 256) (n / 256 % 256) (n / 65536 % 256) (n / 16777216)
      (n / 256) (n / 65536) n d1 d2 d3)

theorem readU32_drop (bytes : List Nat) (off k : Nat) :
    readU32 (bytes.drop off) k = readU32 bytes (off + k) := by
  unfold readU32
  rw [List.drop_drop]

theorem take_append_of_length (A B : List Nat) (h : A.length = 4) : (A ++ B).take 4 = A := by
  rw [← h]
  exact List.take_left A B

theorem offsetTableBytes_length (c : Nat) :
    ∀ base : Nat, (offsetTableBytes base c).length = 4 * c := by
  induction c with
  | zero => intro base; rfl
  | succ c ih =>
    intro base
    simp only [offsetTableBytes, List.length_append, ih, toLE4, List.length_cons,
      List.length_nil]
    omega

theorem readU32_offsetTableBytes (c : Nat) :
    ∀ (base i : Nat) (rest : List Nat), i < c → base + 8 * i < 4294967296 →
      readU32 (offsetTableBytes base c ++ rest) (4 * i) = some (base + 8 * i) := by
  induction c with
  | zero => intro base i rest hi; omega
  | succ c ih =>
    intro base i rest hi h32
    cases i with
    | zero =>
      have h := readU32_toLE4 base (offsetTableBytes (base + 8) c ++ rest) (by omega)
      simpa [offsetTableBytes] using h
    | succ i =>
      simp only [offsetTableBytes, List.append_assoc]
      have e : 4 * (i + 1) = (toLE4 base).length + 4 * i := by
        simp [toLE4]
        omega
      rw [e, readU32_append]
      rw [ih (base + 8) i rest (by omega) (by omega)]
      congr 1
      omega

theorem partsBytes_cons (n : List Nat) (rest : List (List Nat)) :
    partsBytes (n :: rest) = n ++ (toLE4 0 ++ partsBytes rest) := by
  simp [partsBytes]

theorem partsBytes_length (names : List (List Nat)) (h4 : ∀ n ∈ names, n.length = 4) :
    (partsBytes names).length = 8 * names.length := by
  induction names with
  | nil => rfl
  | cons n rest ih =>
    have hn := h4 n (by simp)
    have hr := ih fun m hm => h4 m (by simp [hm])
    simp only [partsBytes_cons, List.length_append, List.length_cons, hn, hr, toLE4,
      List.length_nil]
    omega

theorem partsBytes_drop (i : Nat) :
    ∀ names : List (List Nat), (∀ n ∈ names, n.length = 4) →
      (partsBytes names).drop (8 * i) = partsBytes (names.drop i) := by
  induction i with
  | zero => intro names h4; simp
  | succ i ih =>
    intro names h4
    cases names with
    | nil => simp [partsBytes]
    | cons n rest =>
      have hn : n.length = 4 := h4 n (by simp)
      rw [partsBytes_cons]
      rw [show n ++ (toLE4 0 ++ partsBytes rest) = (n ++ toLE4 0) ++ partsBytes rest by simp]
      have e : 8 * (i + 1) = (n ++ toLE4 0).length + 8 * i := by
        simp [toLE4, hn]
        omega
      rw [e, List.drop_append]
      rw [ih rest fun m hm => h4 m (by simp [hm])]
      simp

theorem preCountBytes_length (names : List (List Nat)) :
    (preCountBytes names).length = 28 := by
  simp [preCountBytes, magicBytes, z, toLE4]

theorem buildContainer_length (names : List (List Nat)) (h4 : ∀ n ∈ names, n.length = 4) :
    (buildContainer names).length = 32 + 12 * names.length := by
  simp only [buildContainer, List.length_append, preCountBytes_length,
    offsetTableBytes_length, partsBytes_length names h4, toLE4, List.length_cons,
    List.length_nil]
  omega

theorem buildContainer_readU32_offset (names : List (List Nat)) (i : Nat)
    (hi : i < names.length) (hK : 32 + 12 * names.length < 4294967296) :
    readU32 (buildContainer names) (32 + 4 * i) =
      some (32 + 4 * names.length + 8 * i) := by
  have hassoc : buildContainer names =
      (preCountBytes names ++ toLE4 names.length) ++
        (offsetTableBytes (32 + 4 * names.length) names.length ++ partsBytes names) := by
    simp [buildContainer, List.append_assoc]
  have hlen : (preCountBytes names ++ toLE4 names.length).length = 32 := by
    simp [preCountBytes_length, toLE4]
  have h := readU32_append (preCountBytes names ++ toLE4 names.length)
    (offsetTableBytes (32 + 4 * names.length) names.length ++ partsBytes names) (4 * i)
  rw [hlen] at h
  rw [hassoc, h]
  exact readU32_offsetTableBytes names.length (32 + 4 * names.length) i
    (partsBytes names) hi (by omega)

theorem buildContainer_drop (names : List (List Nat)) (i : Nat)
    (h4 : ∀ n ∈ names, n.length = 4) :
    (buildContainer names).drop (32 + 4 * names.length + 8 * i) =
      partsBytes (names.drop i) := by
  have hassoc : buildContainer names =
      (preCountBytes names ++ toLE4 names.length ++
        offsetTableBytes (32 + 4 * names.length) names.length) ++ partsBytes names := by
    simp [buildContainer, List.append_assoc]
  have hlen : (preCountBytes names ++ toLE4 names.length ++
      offsetTableBytes (32 + 4 * names.length) names.length).length =
        32 + 4 * names.length := by
    simp [preCountBytes_length, toLE4, offsetTableBytes_length]
    omega
  rw [hassoc]
  have e : 32 + 4 * names.length + 8 * i =
      (preCountBytes names ++ toLE4 names.length ++
        offsetTableBytes (32 + 4 * names.length) names.length).length + 8 * i := by
    rw [hlen]
  rw [e, List.drop_append, partsBytes_drop i names h4]

theorem buildContainer_readU32_partCount (names : List (List Nat))
    (hK : 32 + 12 * names.length < 4294967296) :
    readU32 (buildContainer names) 28 = some names.length := by
  have hassoc : buildContainer names =
      preCountBytes names ++ (toLE4 names.length ++
        (offsetTableBytes (32 + 4 * names.length) names.length ++ partsBytes names)) := by
    simp [buildContainer, List.append_assoc]
  have h := readU32_append (preCountBytes names)
    (toLE4 names.length ++
      (offsetTableBytes (32 + 4 * names.length) names.length ++ partsBytes names)) 0
  rw [preCountBytes_length] at h
  simp only [Nat.add_zero] at h
  rw [hassoc, h, readU32_toLE4 _ _ (by omega)]

theorem buildLoop_step (names : List (List Nat)) (n : List Nat)
    (tail : List (List Nat)) (i : Nat) (acc : List PartInfo)
    (h4 : ∀ m ∈ names, m.length = 4)
    (hfake : parsePartData n [] = Except.ok ())
    (hK : 32 + 12 * names.length < 4294967296)
    (hdrop : names.drop i = n :: tail)
    (hlen : i + (n :: tail).length = names.length) :
    parsePartsLoop (buildContainer names) i (tail.length + 1)
        (32 + 4 * names.length + 8 * i) acc =
      parsePartsLoop (buildContainer names) (i + 1) tail.length
        (32 + 4 * names.length + 8 * (i + 1)) (⟨n, 0, []⟩ :: acc) := by
  have hi : i < names.length := by
    simp only [List.length_cons] at hlen
    omega
  have hmem : n ∈ names := by
    have hmem0 : n ∈ names.drop i := by
      rw [hdrop]
      exact List.mem_cons_self n tail
    exact List.drop_subset i names hmem0
  have hread := buildContainer_readU32_offset names i hi hK
  have hdropbuf := buildContainer_drop names i h4
  rw [hdrop] at hdropbuf
  have hblen := buildContainer_length names h4
  have hsize : readU32 (buildContainer names)
      (32 + 4 * names.length + 8 * i + 4) = some 0 := by
    have h1 := (readU32_drop (buildContainer names)
      (32 + 4 * names.length + 8 * i) 4).symm
    rw [hdropbuf, partsBytes_cons] at h1
    have h2 := readU32_append n (toLE4 0 ++ partsBytes tail) 0
    simp only [h4 n hmem, Nat.add_zero] at h2
    rw [h1, h2, readU32_toLE4 0 (partsBytes tail) (by omega)]
  have hname : ((buildContainer names).drop (32 + 4 * names.length + 8 * i)).take 4
      = n := by
    rw [hdropbuf, partsBytes_cons]
    exact take_append_of_length n _ (h4 n hmem)
  simp only [parsePartsLoop, hread]
  rw [if_neg (lt_irrefl _)]
  rw [hblen, if_neg (by omega), if_neg (by omega)]
  rw [hsize]
  simp only [hname, List.take_zero]
  rw [hfake]
  rw [show 32 + 4 * names.length + 8 * i + 8 + 0 =
    32 + 4 * names.length + 8 * (i + 1) by omega]
  rw [Nat.mod_eq_of_lt (by omega)]

theorem buildLoop (names : List (List Nat)) (h4 : ∀ n ∈ names, n.length = 4)
    (hfake : ∀ n ∈ names, parsePartData n [] = Except.ok ())
    (hK : 32 + 12 * names.length < 4294967296) :
    ∀ (tail : List (List Nat)) (i : Nat) (acc : List PartInfo),
      names.drop i = tail → i + tail.length = names.length →
      parsePartsLoop (buildContainer names) i tail.length
          (32 + 4 * names.length + 8 * i) acc =
        Except.ok (acc.reverse ++ tail.map fun n => ⟨n, 0, []⟩) := by
  intro tail
  induction tail with
  | nil =>
    intro i acc hdrop hlen
    simp [parsePartsLoop]
  | cons n tail ih =>
    intro i acc hdrop hlen
    have hmem : n ∈ names := by
      have hmem0 : n ∈ names.drop i := by
        rw [hdrop]
        exact List.mem_cons_self n tail
      exact List.drop_subset i names hmem0
    have hdrop1 : names.drop (i + 1) = tail := by
      have hdd : (names.drop i).drop 1 = names.drop (i + 1) := List.drop_drop 1 i names
      rw [hdrop] at hdd
      simpa using hdd.symm
    have hlen1 : i + 1 + tail.length = names.length := by
      simp only [List.length_cons] at hlen
      omega
    have hstep := buildLoop_step names n tail i acc h4 (hfake n hmem) hK hdrop hlen
    simp only [List.length_cons, hstep]
    rw [ih (i + 1) (⟨n, 0, []⟩ :: acc) hdrop1 hlen1]
    simp

theorem invalidOffsetBuf_length : invalidOffsetBuf.length = 36 := rfl

theorem overlappingPartsBuf_length : overlappingPartsBuf.length = 60 := rfl

set_option maxRecDepth 40000 in
theorem misalignedBuf_length : misalignedBuf.length = 168 := rfl

set_option maxRecDepth 40000 in
theorem resourceOverrunBuf_length : resourceOverrunBuf.length = 116 := rfl

set_option maxRecDepth 40000 in
theorem resourceCrossPartBuf_length : resourceCrossPartBuf.length = 144 := rfl

set_option maxRecDepth 40000 in
theorem sigNameBeforeBuf_length : sigNameBeforeBuf.length = 112 := rfl

set_option maxRecDepth 40000 in
theorem sigNameAfterBuf_length : sigNameAfterBuf.length = 112 := rfl

theorem parsePartsLoop_step (bytes : List Nat) (i fuel lastOff off size : Nat)
    (acc : List PartInfo)
    (hread : readU32 bytes (32 + 4 * i) = some off)
    (h2 : ¬ off < lastOff)
    (h3 : ¬ bytes.length ≤ off)
    (h4 : ¬ bytes.length - 4 ≤ off)
    (hsize : readU32 bytes (off + 4) = some size)
    (hok : parsePartData ((bytes.drop off).take 4) ((bytes.drop (off + 8)).take size) =
      Except.ok ())
    (hmod : (off + 8 + size) % 4294967296 = off + 8 + size) :
    parsePartsLoop bytes i (fuel + 1) lastOff acc =
      parsePartsLoop bytes (i + 1) fuel (off + 8 + size)
        (⟨(bytes.drop off).take 4, size, (bytes.drop (off + 8)).take size⟩ :: acc) := by
  simp only [parsePartsLoop, hread]
  rw [if_neg h2, if_neg h3, if_neg h4]
  simp only [hsize, hok, hmod]

theorem parsePartsLoop_fail (bytes : List Nat) (i fuel lastOff off size : Nat)
    (e : ParseError) (acc : List PartInfo)
    (hread : readU32 bytes (32 + 4 * i) = some off)
    (h2 : ¬ off < lastOff)
    (h3 : ¬ bytes.length ≤ off)
    (h4 : ¬ bytes.length - 4 ≤ off)
    (hsize : readU32 bytes (off + 4) = some size)
    (herr : parsePartData ((bytes.drop off).take 4) ((bytes.drop (off + 8)).take size) =
      Except.error e) :
    parsePartsLoop bytes i (fuel + 1) lastOff acc = Except.error e := by
  simp only [parsePartsLoop, hread]
  rw [if_neg h2, if_neg h3, if_neg h4]
  simp only [hsize, herr]

theorem create_error (bytes : List Nat) (partCount : Nat) (e : ParseError)
    (hlen : ¬ bytes.length < 32)
    (hcount : readU32 bytes 28 = some partCount)
    (hmod : (32 + 4 * partCount) % 4294967296 = 32 + 4 * partCount)
    (hloop : parsePartsLoop bytes 0 partCount (32 + 4 * partCount) [] = Except.error e) :
    DXContainer.create bytes = Except.error e := by
  unfold DXContainer.create
  rw [if_neg hlen]
  simp only [hcount, hmod, hloop]

set_option maxRecDepth 40000 in
theorem misalignedBuf_create :
    DXContainer.create misalignedBuf = Except.error ParseError.misalignedStringTable := by
  refine create_error misalignedBuf 2 ParseError.misalignedStringTable
    (by rw [misalignedBuf_length]; decide) rfl (by decide) ?_
  refine Eq.trans (parsePartsLoop_step misalignedBuf 0 1 40 40 24 [] rfl (by decide)
    (by rw [misalignedBuf_length]; decide) (by rw [misalignedBuf_length]; decide) rfl rfl
    (by decide)) ?_
  exact parsePartsLoop_fail misalignedBuf 1 0 72 72 104 ParseError.misalignedStringTable _
    rfl (by decide) (by rw [misalignedBuf_length]; decide)
    (by rw [misalignedBuf_length]; decide) rfl rfl

theorem checkParams_error_classes (data : List Nat) (firstOff stOff : Nat) :
    ∀ (n i : Nat) (e : ParseError), checkParams data firstOff stOff i n = Except.error e →
      e = ParseError.nameBeforeStringTable ∨ e = ParseError.nameAfterPartEnd := by
  intro n
  induction n with
  | zero =>
    intro i e h
    simp [checkParams] at h
  | succ n ih =>
    intro i e h
    simp only [checkParams] at h
    split at h
    · injection h with h2
      exact Or.inl h2.symm
    · split at h
      · injection h with h2
        exact Or.inr h2.symm
      · exact ih (i + 1) e h

theorem checkParams_skip (data : List Nat) (firstOff stOff : Nat) :
    ∀ (i n : Nat),
      (∀ j, j < i → ¬ readU32Z data (firstOff + 32 * j + 4) < stOff ∧
        ¬ data.length ≤ readU32Z data (firstOff + 32 * j + 4)) →
      checkParams data firstOff stOff 0 (i + n) = checkParams data firstOff stOff i n := by
  intro i
  induction i with
  | zero => intro n h; rw [Nat.zero_add]
  | succ i ih =>
    intro n h
    have h1 := ih (n + 1) fun j hj => h j (by omega)
    rw [show i + 1 + n = i + (n + 1) by omega, h1]
    have hok := h i (by omega)
    simp only [checkParams]
    rw [if_neg hok.1, if_neg hok.2]

/-- C2: over the resource table with declared stride 16 holding the three
resources Sampler, CBV and SRVTyped, forward iteration from the begin
iterator yields the type tags in that order; decrementing the successor of
begin returns to the Sampler record; dereferencing the end sentinel yields
the record with type Invalid and flags zero without faulting; and
incrementing an iterator at the end sentinel and then decrementing it yields
the last valid element, the SRVTyped record. -/
theorem c2_psv_resource_iterator :
    (VAIterator.deref (ViewArray.ibegin c2VA)).ResType = rtSampler ∧
    (VAIterator.deref (ViewArray.ibegin c2VA)).Flags = 0 ∧
    (VAIterator.deref (VAIterator.inc (ViewArray.ibegin c2VA))).ResType = rtCBV ∧
    (VAIterator.deref (VAIterator.inc (VAIterator.inc (ViewArray.ibegin c2VA)))).ResType =
      rtSRVTyped ∧
    VAIterator.dec (VAIterator.inc (ViewArray.ibegin c2VA)) = ViewArray.ibegin c2VA ∧
    (VAIterator.deref (VAIterator.dec (VAIterator.inc (ViewArray.ibegin c2VA)))).ResType =
      rtSampler ∧
    VAIterator.inc (VAIterator.inc (VAIterator.inc (ViewArray.ibegin c2VA))) =
      ViewArray.iend c2VA ∧
    VAIterator.deref (ViewArray.iend c2VA) = invalidBindInfo ∧
    (VAIterator.deref (ViewArray.iend c2VA)).ResType = rtInvalid ∧
    (VAIterator.deref (ViewArray.iend c2VA)).Flags = 0 ∧
    (VAIterator.deref (VAIterator.dec (VAIterator.inc (ViewArray.iend c2VA)))).ResType =
      rtSRVTyped := by
  set_option maxRecDepth 40000 in
  exact ⟨rfl, rfl, rfl, rfl, rfl, rfl, rfl, rfl, rfl, rfl, rfl⟩

/-- C3 counterexample: in the stride-32 table of the PSVResourceIteratorsStride
test, the two records do not lie at byte offsets 16 and 48 of the resource
table: decoding a record at table offset 16 or 48 yields zero value fields,
not the declared values, and the iterator positions of the two records are 0
and 32. -/
theorem c3_counterexample :
    (VAIterator.deref ⟨c3VA, 16⟩).ResType = 0 ∧
    (VAIterator.deref ⟨c3VA, 16⟩).Space = 0 ∧
    (VAIterator.deref ⟨c3VA, 16⟩).ResType ≠ rtSampler ∧
    (VAIterator.deref ⟨c3VA, 48⟩).ResType = 0 ∧
    (VAIterator.deref ⟨c3VA, 48⟩).ResType ≠ rtSRVStructured ∧
    (ViewArray.ibegin c3VA).pos = 0 ∧
    (VAIterator.inc (ViewArray.ibegin c3VA)).pos = 32 ∧
    (0 : Nat) ≠ 16 ∧ (32 : Nat) ≠ 48 := by
  exact ⟨rfl, rfl, by decide, rfl, by decide, rfl, rfl, by decide, by decide⟩

/-- C3 amended: over the declared-stride-32 table with 2 records, the
iterator reads the records at table byte offsets 0 and 32, multiples of the
declared stride, yielding the declared values 1,2,3,4 and 5,6,7,8 with the
fields beyond the decoded bytes zero (flags zero); the declared stride, not
the natural 24-byte record width and not the default 16, governs traversal;
the end sentinel lies at 64 and dereferences to the Invalid record. -/
theorem c3_stride_governs_traversal :
    (ViewArray.ibegin c3VA).pos = 0 ∧
    (VAIterator.inc (ViewArray.ibegin c3VA)).pos = 32 ∧
    VAIterator.inc (VAIterator.inc (ViewArray.ibegin c3VA)) = ViewArray.iend c3VA ∧
    (ViewArray.iend c3VA).pos = 64 ∧
    c3VA.Stride = 32 ∧ c3VA.Stride ≠ bindInfoWidth ∧ c3VA.Stride ≠ 16 ∧
    VAIterator.deref (ViewArray.ibegin c3VA) =
      { ResType := rtSampler, Space := 2, LowerBound := 3, UpperBound := 4,
        Kind := 0, Flags := 0 } ∧
    VAIterator.deref (VAIterator.inc (ViewArray.ibegin c3VA)) =
      { ResType := rtSRVStructured, Space := 6, LowerBound := 7, UpperBound := 8,
        Kind := 0, Flags := 0 } ∧
    VAIterator.deref (ViewArray.iend c3VA) = invalidBindInfo := by
  exact ⟨rfl, rfl, rfl, rfl, rfl, by decide, by decide, rfl, rfl, rfl⟩

/-- C1 counterexample: the MisalignedStringTable test buffer holds a part at
offset 72 with declared size 104, so its declared end 72 + 8 + 104 = 184
exceeds the 168-byte buffer; yet create does not return the PartExceedsFile
error: it truncates the part data to the 88 bytes available and proceeds
into the PSV decoder, failing there with misalignedStringTable. -/
theorem c1_counterexample :
    misalignedBuf.length = 168 ∧
    readU32 misalignedBuf 36 = some 72 ∧
    readU32 misalignedBuf 76 = some 104 ∧
    168 < 72 + 8 + 104 ∧
    DXContainer.create misalignedBuf = Except.error ParseError.misalignedStringTable ∧
    ParseError.misalignedStringTable ≠ ParseError.partExceedsFile ∧
    ((misalignedBuf.drop 80).take 104).length = 88 := by
  set_option maxRecDepth 40000 in
  exact ⟨misalignedBuf_length, rfl, rfl, by decide, misalignedBuf_create, by decide,
    by rw [List.length_take, List.length_drop, misalignedBuf_length]; decide⟩

/-- C1 amended: a part whose offset lies at or past the buffer end is
rejected with the part-offset-beyond-file error rather than being accepted
through arithmetic wraparound; in particular the 36-byte test buffer whose
single part offset is 0xFFFFFFFF is rejected with it.  A part whose 8-byte
header is readable but whose declared end exceeds the buffer is not rejected
(see the counterexample): its data is truncated at the buffer end. -/
theorem c1_offset_beyond_file :
    (∀ (bytes : List Nat) (i fuel lastOff off : Nat) (acc : List PartInfo),
        readU32 bytes (32 + 4 * i) = some off →
        ¬ off < lastOff →
        bytes.length ≤ off →
        parsePartsLoop bytes i (fuel + 1) lastOff acc =
          Except.error ParseError.partOffsetBeyondFile) ∧
    DXContainer.create invalidOffsetBuf = Except.error ParseError.partOffsetBeyondFile := by
  have huniv : ∀ (bytes : List Nat) (i fuel lastOff off : Nat) (acc : List PartInfo),
      readU32 bytes (32 + 4 * i) = some off →
      ¬ off < lastOff →
      bytes.length ≤ off →
      parsePartsLoop bytes i (fuel + 1) lastOff acc =
        Except.error ParseError.partOffsetBeyondFile := by
    intro bytes i fuel lastOff off acc hread hov hlen
    simp only [parsePartsLoop, hread]
    rw [if_neg hov, if_pos hlen]
  refine ⟨huniv, ?_⟩
  exact create_error invalidOffsetBuf 1 ParseError.partOffsetBeyondFile
    (by rw [invalidOffsetBuf_length]; decide) rfl (by decide)
    (huniv invalidOffsetBuf 0 0 36 4294967295 [] rfl (by decide)
      (by rw [invalidOffsetBuf_length]; decide))

theorem c1_offset_beyond_file_witness :
    parsePartsLoop invalidOffsetBuf 0 1 36 [] =
      Except.error ParseError.partOffsetBeyondFile :=
  c1_offset_beyond_file.1 invalidOffsetBuf 0 0 36 4294967295 [] rfl (by decide)
    (by rw [invalidOffsetBuf_length]; decide)

/-- C8: for every buffer shorter than the 32-byte header, including the empty
buffer and the buffer holding only the 4-byte magic, create fails with the
truncatedHeader structural error before interpreting any header field, and no
container value is returned. -/
theorem c8_truncated_header (bytes : List Nat) (h : bytes.length < 32) :
    DXContainer.create bytes = Except.error ParseError.truncatedHeader := by
  unfold DXContainer.create
  rw [if_pos h]

theorem c8_truncated_header_witness :
    DXContainer.create magicOnlyBuf = Except.error ParseError.truncatedHeader ∧
    DXContainer.create [] = Except.error ParseError.truncatedHeader :=
  ⟨c8_truncated_header magicOnlyBuf (by decide), c8_truncated_header [] (by decide)⟩

/-- C10: over a table of count records of stride bytes each, the iterator
position stays within zero and count strides: incrementing an iterator at
the end sentinel leaves it at the end sentinel, whose dereference is the
zero-initialised Invalid record with flags zero; decrementing an iterator at
the begin position leaves it there, so its dereference still yields the
first record; and incrementing or decrementing from any in-range multiple of
the stride lands at or below the end sentinel. -/
theorem c10_iterator_clamped (data : List Nat) (stride count k : Nat)
    (hlen : data.length = count * stride) (hs : 0 < stride) (hk : k ≤ count) :
    VAIterator.inc ⟨⟨data, stride⟩, count * stride⟩ = ⟨⟨data, stride⟩, count * stride⟩ ∧
    VAIterator.deref ⟨⟨data, stride⟩, count * stride⟩ = invalidBindInfo ∧
    (VAIterator.deref ⟨⟨data, stride⟩, count * stride⟩).Flags = 0 ∧
    VAIterator.dec ⟨⟨data, stride⟩, 0⟩ = ⟨⟨data, stride⟩, 0⟩ ∧
    VAIterator.deref (VAIterator.dec ⟨⟨data, stride⟩, 0⟩) =
      VAIterator.deref ⟨⟨data, stride⟩, 0⟩ ∧
    (VAIterator.inc ⟨⟨data, stride⟩, k * stride⟩).pos ≤ count * stride ∧
    (VAIterator.dec ⟨⟨data, stride⟩, k * stride⟩).pos ≤ count * stride := by
  have hmul : k * stride ≤ count * stride := Nat.mul_le_mul_right stride hk
  have hdec : VAIterator.dec ⟨⟨data, stride⟩, 0⟩ = ⟨⟨data, stride⟩, 0⟩ := by
    simp [VAIterator.dec]
  refine ⟨?_, ?_, ?_, hdec, by rw [hdec], ?_, ?_⟩
  · simp [VAIterator.inc, hlen]
  · simp [VAIterator.deref, hlen]
  · simp [VAIterator.deref, hlen, invalidBindInfo, decodeBindInfo, readU32Z]
  · simp only [VAIterator.inc]
    split
    · rename_i h
      simp only [hlen] at h
      have hkc : k < count := by
        by_contra hc
        push_neg at hc
        have := Nat.mul_le_mul_right stride hc
        omega
      have h1 : (k + 1) * stride ≤ count * stride := Nat.mul_le_mul_right stride hkc
      have e : k * stride + stride = (k + 1) * stride := by ring
      simpa [e] using h1
    · simpa using hmul
  · simp only [VAIterator.dec]
    split
    · simp only []
      omega
    · simpa using hmul

theorem c10_iterator_clamped_witness :
    VAIterator.inc ⟨⟨c2Table, 16⟩, 3 * 16⟩ = ⟨⟨c2Table, 16⟩, 3 * 16⟩ ∧
    VAIterator.deref ⟨⟨c2Table, 16⟩, 3 * 16⟩ = invalidBindInfo ∧
    (VAIterator.deref ⟨⟨c2Table, 16⟩, 3 * 16⟩).Flags = 0 ∧
    VAIterator.dec ⟨⟨c2Table, 16⟩, 0⟩ = ⟨⟨c2Table, 16⟩, 0⟩ ∧
    VAIterator.deref (VAIterator.dec ⟨⟨c2Table, 16⟩, 0⟩) =
      VAIterator.deref ⟨⟨c2Table, 16⟩, 0⟩ ∧
    (VAIterator.inc ⟨⟨c2Table, 16⟩, 1 * 16⟩).pos ≤ 3 * 16 ∧
    (VAIterator.dec ⟨⟨c2Table, 16⟩, 1 * 16⟩).pos ≤ 3 * 16 :=
  c10_iterator_clamped c2Table 16 3 1 rfl (by decide) (by decide)

/-- C4: walking parts in offset-table order, when the part at index i parses
(offset past the running end, in bounds, size readable, content decoder
accepting) and the next offset-table entry is below the running end of that
part, which is Offset + 8 + Size reduced mod 2 to the 32 and not merely
Offset, the walk fails with the overlappingParts error naming index i + 1;
concretely, the 60-byte ParseOverlappingParts test buffer is rejected naming
part 1, whose offset 44 sits past the offset 40 of part 0 but below its end
56. -/
theorem c4_overlapping_parts :
    (∀ (bytes : List Nat) (i fuel lastOff prevOff prevSize off : Nat) (acc : List PartInfo),
        readU32 bytes (32 + 4 * i) = some prevOff →
        ¬ prevOff < lastOff →
        ¬ bytes.length ≤ prevOff →
        ¬ bytes.length - 4 ≤ prevOff →
        readU32 bytes (prevOff + 4) = some prevSize →
        parsePartData ((bytes.drop prevOff).take 4)
            ((bytes.drop (prevOff + 8)).take prevSize) = Except.ok () →
        readU32 bytes (32 + 4 * (i + 1)) = some off →
        off < (prevOff + 8 + prevSize) % 4294967296 →
        parsePartsLoop bytes i (fuel + 2) lastOff acc =
          Except.error (ParseError.overlappingParts (i + 1))) ∧
    DXContainer.create overlappingPartsBuf =
      Except.error (ParseError.overlappingParts 1) := by
  have huniv : ∀ (bytes : List Nat) (i fuel lastOff prevOff prevSize off : Nat)
      (acc : List PartInfo),
      readU32 bytes (32 + 4 * i) = some prevOff →
      ¬ prevOff < lastOff →
      ¬ bytes.length ≤ prevOff →
      ¬ bytes.length - 4 ≤ prevOff →
      readU32 bytes (prevOff + 4) = some prevSize →
      parsePartData ((bytes.drop prevOff).take 4)
          ((bytes.drop (prevOff + 8)).take prevSize) = Except.ok () →
      readU32 bytes (32 + 4 * (i + 1)) = some off →
      off < (prevOff + 8 + prevSize) % 4294967296 →
      parsePartsLoop bytes i (fuel + 2) lastOff acc =
        Except.error (ParseError.overlappingParts (i + 1)) := by
    intro bytes i fuel lastOff prevOff prevSize off acc h1 h2 h3 h4 h5 h6 h7 h8
    simp only [parsePartsLoop, h1]
    rw [if_neg h2, if_neg h3, if_neg h4]
    simp only [h5]
    simp only [h6]
    simp only [parsePartsLoop, h7]
    rw [if_pos h8]
  refine ⟨huniv, ?_⟩
  exact create_error overlappingPartsBuf 2 (ParseError.overlappingParts 1)
    (by rw [overlappingPartsBuf_length]; decide) rfl (by decide)
    (huniv overlappingPartsBuf 0 0 40 40 8 44 [] rfl (by decide)
      (by rw [overlappingPartsBuf_length]; decide)
      (by rw [overlappingPartsBuf_length]; decide) rfl rfl rfl (by decide))

theorem c4_overlapping_parts_witness :
    parsePartsLoop overlappingPartsBuf 0 2 40 [] =
      Except.error (ParseError.overlappingParts 1) :=
  c4_overlapping_parts.1 overlappingPartsBuf 0 0 40 40 8 44 [] rfl (by decide)
    (by decide) (by decide) rfl rfl rfl (by decide)

/-- Modelled from the spec: whenever the PSV info record fits but the
declared resource table does not fit in the part data, the decoder fails
with resourceTableExceedsPart. -/
theorem psv_resource_bound_error :
    ∀ (data : List Nat) (infoSize resCount stride : Nat),
      readU32 data 0 = some infoSize →
      ¬ data.length < 4 + infoSize →
      readU32 data (4 + infoSize) = some resCount →
      resCount ≠ 0 →
      readU32 data (8 + infoSize) = some stride →
      data.length < 12 + infoSize + resCount * stride →
      parsePSV data = Except.error ParseError.resourceTableExceedsPart := by
  intro data infoSize resCount stride h1 h2 h3 h4 h5 h6
  simp only [parsePSV, h1]
  rw [if_neg h2]
  simp only [h3]
  rw [if_neg h4]
  simp only [h5]
  rw [if_pos h6]

set_option maxRecDepth 40000 in
/-- Modelled from the spec: create on the MaliciousFiles buffer whose PSV
resource table overruns the file end fails with resourceTableExceedsPart. -/
theorem resourceOverrunBuf_create :
    DXContainer.create resourceOverrunBuf =
      Except.error ParseError.resourceTableExceedsPart := by
  refine create_error resourceOverrunBuf 2 ParseError.resourceTableExceedsPart
    (by rw [resourceOverrunBuf_length]; decide) rfl (by decide) ?_
  refine Eq.trans (parsePartsLoop_step resourceOverrunBuf 0 1 40 40 24 [] rfl (by decide)
    (by rw [resourceOverrunBuf_length]; decide) (by rw [resourceOverrunBuf_length]; decide)
    rfl rfl (by decide)) ?_
  exact parsePartsLoop_fail resourceOverrunBuf 1 0 72 72 36
    ParseError.resourceTableExceedsPart _ rfl (by decide)
    (by rw [resourceOverrunBuf_length]; decide) (by rw [resourceOverrunBuf_length]; decide)
    rfl rfl

set_option maxRecDepth 40000 in
/-- Modelled from the spec: create on the MaliciousFiles buffer whose PSV
resource table stays inside the file but reaches into the following BLEH
part fails with resourceTableExceedsPart. -/
theorem resourceCrossPartBuf_create :
    DXContainer.create resourceCrossPartBuf =
      Except.error ParseError.resourceTableExceedsPart := by
  refine create_error resourceCrossPartBuf 3 ParseError.resourceTableExceedsPart
    (by rw [resourceCrossPartBuf_length]; decide) rfl (by decide) ?_
  refine Eq.trans (parsePartsLoop_step resourceCrossPartBuf 0 2 44 44 24 [] rfl (by decide)
    (by rw [resourceCrossPartBuf_length]; decide)
    (by rw [resourceCrossPartBuf_length]; decide) rfl rfl (by decide)) ?_
  exact parsePartsLoop_fail resourceCrossPartBuf 1 1 76 76 36
    ParseError.resourceTableExceedsPart _ rfl (by decide)
    (by rw [resourceCrossPartBuf_length]; decide)
    (by rw [resourceCrossPartBuf_length]; decide) rfl rfl

/-- C5: the PSV decoder checks the declared resource table against the part
data alone: whenever the info record fits but the following resource table,
resource count times declared stride placed after the count and stride
fields, does not fit in the part data, the decoder fails with
resourceTableExceedsPart.  The two concrete conjuncts evaluate create on the
MaliciousFiles test buffers: the overrun past the file end and the overrun
that stays inside the file, reaching into the following BLEH part, both fail
with resourceTableExceedsPart attributed to the PSV part. -/
theorem c5_resource_table_exceeds_part :
    (∀ (data : List Nat) (infoSize resCount stride : Nat),
        readU32 data 0 = some infoSize →
        ¬ data.length < 4 + infoSize →
        readU32 data (4 + infoSize) = some resCount →
        resCount ≠ 0 →
        readU32 data (8 + infoSize) = some stride →
        data.length < 12 + infoSize + resCount * stride →
        parsePSV data = Except.error ParseError.resourceTableExceedsPart) ∧
    DXContainer.create resourceOverrunBuf =
      Except.error ParseError.resourceTableExceedsPart ∧
    DXContainer.create resourceCrossPartBuf =
      Except.error ParseError.resourceTableExceedsPart :=
  ⟨psv_resource_bound_error, resourceOverrunBuf_create, resourceCrossPartBuf_create⟩

theorem c5_resource_table_exceeds_part_witness :
    parsePSV psvOverrunData = Except.error ParseError.resourceTableExceedsPart :=
  c5_resource_table_exceeds_part.1 psvOverrunData 24 1 16 rfl (by decide)
    rfl (by decide) rfl (by decide)

/-- C6 counterexample: the signature decoder does not validate a stored
string-table start offset against the end of the parameter table: in the
48-byte gapSigData part the single parameter name begins at offset 44, four
bytes past the parameter-table end 8 + 32 = 40, and the decoder accepts the
part instead of rejecting it with misalignedStringTable. -/
theorem c6_counterexample :
    readU32 gapSigData 0 = some 1 ∧
    readU32 gapSigData 4 = some 8 ∧
    readU32Z gapSigData 12 = 44 ∧
    (44 : Nat) ≠ 8 + 32 * 1 ∧
    parseSignature gapSigData = Except.ok () := by
  exact ⟨rfl, rfl, rfl, by decide, rfl⟩

/-- C6 amended: the signature decoder computes the string-table start as the
end of the parameter table and never reports misalignedStringTable, whatever
the part bytes: every error it returns is a different constructor.  The
String table misaligned failure belongs to the PSV decoder: the 168-byte
MisalignedStringTable test container, whose two parts are DXIL and PSV0 with
no signature part, is rejected with misalignedStringTable because the PSV
string-table size field at offset 44 of the part data holds 1, not a
multiple of four. -/
theorem c6_misaligned_is_psv :
    (∀ (data : List Nat) (e : ParseError), parseSignature data = Except.error e →
        e ≠ ParseError.misalignedStringTable) ∧
    DXContainer.create misalignedBuf = Except.error ParseError.misalignedStringTable ∧
    (misalignedBuf.drop 40).take 4 = dxilName ∧
    (misalignedBuf.drop 72).take 4 = psv0Name ∧
    readU32 misalignedBuf 28 = some 2 ∧
    readU32 ((misalignedBuf.drop 80).take 104) 44 = some 1 := by
  set_option maxRecDepth 40000 in
  refine ⟨?_, misalignedBuf_create, rfl, rfl, rfl, rfl⟩
  intro data e h
  unfold parseSignature at h
  split at h
  · split at h
    · injection h with h2
      subst h2
      decide
    · rcases checkParams_error_classes data _ _ _ 0 e h with h1 | h1 <;> subst h1 <;> decide
  · injection h with h2
    subst h2
    decide

theorem c6_misaligned_is_psv_witness :
    ParseError.nameBeforeStringTable ≠ ParseError.misalignedStringTable :=
  c6_misaligned_is_psv.1 sigNameBeforeData ParseError.nameBeforeStringTable rfl

/-- C7: in the signature decoder, when the parameter table fits and the
parameters before index i all carry name offsets inside the valid range,
a parameter i whose resolved name offset is below the string-table start,
which is the parameter-table end ParametersStart + 32 * ParameterCount,
fails the whole part with nameBeforeStringTable, and one whose offset is at
or past the end of the part data fails it with nameAfterPartEnd.  The two
concrete conjuncts evaluate create on the MalformedSignature test
containers: name offset 3 yields nameBeforeStringTable and name offset 255
yields nameAfterPartEnd. -/
theorem c7_signature_name_offsets :
    (∀ (data : List Nat) (count firstOff i : Nat),
        readU32 data 0 = some count →
        readU32 data 4 = some firstOff →
        ¬ data.length < firstOff + 32 * count →
        i < count →
        (∀ j, j < i → ¬ readU32Z data (firstOff + 32 * j + 4) < firstOff + 32 * count ∧
          ¬ data.length ≤ readU32Z data (firstOff + 32 * j + 4)) →
        (readU32Z data (firstOff + 32 * i + 4) < firstOff + 32 * count →
          parseSignature data = Except.error ParseError.nameBeforeStringTable) ∧
        (data.length ≤ readU32Z data (firstOff + 32 * i + 4) →
          parseSignature data = Except.error ParseError.nameAfterPartEnd)) ∧
    DXContainer.create sigNameBeforeBuf = Except.error ParseError.nameBeforeStringTable ∧
    DXContainer.create sigNameAfterBuf = Except.error ParseError.nameAfterPartEnd := by
  refine ⟨?_, ?_, ?_⟩
  case refine_2 =>
    set_option maxRecDepth 40000 in
    exact create_error sigNameBeforeBuf 1 ParseError.nameBeforeStringTable
      (by rw [sigNameBeforeBuf_length]; decide) rfl (by decide)
      (parsePartsLoop_fail sigNameBeforeBuf 0 0 36 64 52
        ParseError.nameBeforeStringTable [] rfl (by decide)
        (by rw [sigNameBeforeBuf_length]; decide) (by rw [sigNameBeforeBuf_length]; decide)
        rfl rfl)
  case refine_3 =>
    set_option maxRecDepth 40000 in
    exact create_error sigNameAfterBuf 1 ParseError.nameAfterPartEnd
      (by rw [sigNameAfterBuf_length]; decide) rfl (by decide)
      (parsePartsLoop_fail sigNameAfterBuf 0 0 36 64 52
        ParseError.nameAfterPartEnd [] rfl (by decide)
        (by rw [sigNameAfterBuf_length]; decide) (by rw [sigNameAfterBuf_length]; decide)
        rfl rfl)
  intro data count firstOff i hc hf hfit hi hprev
  have hsig : parseSignature data =
      checkParams data firstOff (firstOff + 32 * count) 0 count := by
    unfold parseSignature
    simp only [hc, hf]
    rw [if_neg hfit]
  obtain ⟨m, hm⟩ : ∃ m, count = i + (m + 1) := ⟨count - i - 1, by omega⟩
  subst hm
  have hskip := checkParams_skip data firstOff (firstOff + 32 * (i + (m + 1))) i (m + 1) hprev
  constructor
  · intro hlt
    rw [hsig, hskip]
    simp only [checkParams]
    rw [if_pos hlt]
  · intro hge
    have hnot : ¬ readU32Z data (firstOff + 32 * i + 4) < firstOff + 32 * (i + (m + 1)) := by
      omega
    rw [hsig, hskip]
    simp only [checkParams]
    rw [if_neg hnot, if_pos hge]

theorem c7_signature_name_offsets_witness :
    parseSignature sigNameBeforeData = Except.error ParseError.nameBeforeStringTable ∧
    parseSignature sigNameAfterData = Except.error ParseError.nameAfterPartEnd :=
  ⟨(c7_signature_name_offsets.1 sigNameBeforeData 1 8 0 rfl rfl (by decide)
      (by decide) (fun j hj => absurd hj (by omega))).1 (by decide),
    (c7_signature_name_offsets.1 sigNameAfterData 1 8 0 rfl rfl (by decide)
      (by decide) (fun j hj => absurd hj (by omega))).2 (by decide)⟩

/-- C9: round-trip over zero-size parts: for every description made of
4-byte part names that no structured decoder claims, create on the built
container succeeds, the header part count equals the number of parts, and
the walk visits exactly those parts in offset-table order with the declared
names, each with declared size zero and empty data. -/
theorem c9_empty_parts_roundtrip (names : List (List Nat))
    (h4 : ∀ n ∈ names, n.length = 4)
    (hfake : ∀ n ∈ names, parsePartData n [] = Except.ok ())
    (hK : 32 + 12 * names.length < 4294967296) :
    DXContainer.create (buildContainer names) =
      Except.ok ⟨names.length, names.map fun n => ⟨n, 0, []⟩⟩ := by
  have hblen := buildContainer_length names h4
  unfold DXContainer.create
  rw [if_neg (by omega)]
  simp only [buildContainer_readU32_partCount names hK]
  rw [Nat.mod_eq_of_lt (by omega)]
  have hloop := buildLoop names h4 hfake hK names 0 [] rfl (by simp)
  simp only [Nat.mul_zero, Nat.add_zero, List.reverse_nil, List.nil_append] at hloop
  simp only [hloop]

theorem c9_empty_parts_roundtrip_witness :
    DXContainer.create (buildContainer fkeNames) =
      Except.ok ⟨7, fkeNames.map fun n => ⟨n, 0, []⟩⟩ :=
  c9_empty_parts_roundtrip fkeNames (by decide)
    (fun n hn => by fin_cases hn <;> rfl) (by decide)

end DXC
